import Mathlib

/-!
Verification of the inversion-scanning core (`asmlib/inv.py`).

This file gives a shallow embedding of the inversion scanner: the data model
(`Region`, k-mer state rows, run-length segments, `InvCall`), the per-iteration
step of the expand-and-retest loop (`scanStep`), the post-`FOUND`
characterization (`characterize_found_region`), the flank annotator
(`annotate_inv_dup_mers`), and the `InvCall` constructor (`mkInvCall`).

External collaborators (sequence source, k-mer streaming plus density
smoothing, coordinate lifting, chromosome length table) are passed in as an
explicit environment `ScanEnv` of function-valued fields, following the
contracts of the design document.  Two pieces of repository code living in
modules outside the packaged source (`asmlib.seq.Region.expand` and
`asmlib.density.rl_encoder`) are modelled from the spec; their definitions
carry a doc comment saying so.

Floating point densities are modelled by exact rationals; Python integers by
`Nat` (all quantities involved are non-negative; `np.int32` truncation of
`len * 1.5` is floor division for the region sizes in range).
-/

deriving instance DecidableEq for Except

/-- A half-open genomic interval `[pos, end)` on a named chromosome
(`asmlib.seq.Region`, contract per the spec data model). -/
structure Region where
  chrom : String
  pos : Nat
  end_ : Nat
deriving DecidableEq

instance : Inhabited Region := ⟨⟨"", 0, 0⟩⟩

/-- `len(region) = end - pos`. -/
def Region.length (r : Region) : Nat := r.end_ - r.pos

/-- Modelled from the spec: `asmlib.seq.Region.expand` is repository code not
under `src/`.  Per the spec data model, `expand` grows the interval by a
requested amount `bp`, redistributed between the two ends by the `balance`
fraction (fraction of growth applied upstream), clamped at `0` on the left
(automatic with `Nat` subtraction) and at the per-chromosome maximum
`max_end` on the right. -/
def Region.expand (max_end : Nat) (r : Region) (bp : Nat) (balance : ℚ) : Region :=
  let up_bp : Nat := (⌊balance * (bp : ℚ)⌋).toNat
  let dn_bp : Nat := bp - up_bp
  ⟨r.chrom, r.pos - up_bp, min max_end (r.end_ + dn_bp)⟩

/-- One row of the smoothed k-mer state table produced by
`asmlib.density.get_smoothed_density` (columns used by `inv.py`).
States are `0` (fwd), `1` (fwd-rev) and `2` (rev); `FLANK` and `MATCH`
are the columns added later by `annotate_inv_dup_mers`. -/
structure Row where
  KMER : Nat
  INDEX : Nat
  STATE : Nat
  KERN_FWD : ℚ
  KERN_FWDREV : ℚ
  KERN_REV : ℚ
  FLANK : Option String := none
  MATCH : Option String := none
deriving DecidableEq

/-- A run-length segment `(state, count, start_index, end_index)` as consumed
via `record[0] .. record[3]` in `scan_for_inv`. -/
structure Seg where
  state : Nat
  count : Nat
  start : Nat
  stop : Nat
deriving DecidableEq

/-- Default segment used for total list indexing; its state `9` is not a
valid k-mer state, and every use is guarded by checks making it unreachable. -/
def dSeg : Seg := ⟨9, 0, 0, 0⟩

/-- Modelled from the spec: `asmlib.density.rl_encoder` is repository code not
under `src/`.  Tail of the run-length encoder: `st`, `cnt`, `idx0`, `idxLast`
are the state, length and first/last `INDEX` of the current open run. -/
def rl_encoder_go (st cnt idx0 idxLast : Nat) : List Row → List Seg
  | [] => [⟨st, cnt, idx0, idxLast⟩]
  | r :: rs =>
    if r.STATE = st then rl_encoder_go st (cnt + 1) idx0 r.INDEX rs
    else ⟨st, cnt, idx0, idxLast⟩ :: rl_encoder_go r.STATE 1 r.INDEX r.INDEX rs

/-- Modelled from the spec: run-length encode the `STATE` column of the
smoothed table into segments `(state, run_length, start_index, end_index)`,
the start/end indices being the `INDEX` of the first and last row of the run. -/
def rl_encoder : List Row → List Seg
  | [] => []
  | r :: rs => rl_encoder_go r.STATE 1 r.INDEX r.INDEX rs

--
-- Constants (from the header of `inv.py`; only those used by the core logic)
--

def INITIAL_EXPAND : Nat := 4000

def MAX_REF_KMER_COUNT : Nat := 100

def MIN_INV_KMER_RUN : Nat := 100

def MIN_TIG_REF_PROP : ℚ := 3 / 5

def MIN_EXP_COUNT : Nat := 3

/-- `KMER_LOC_STATE[in-upstream, in-dnstream]`: matrix converting k-mer
location to UP/DN match; `NA` for k-mers in neither or both sets. -/
def KMER_LOC_STATE (inUp inDn : Bool) : String :=
  match inUp, inDn with
  | false, false => "NA"
  | false, true => "OTHER"
  | true, false => "SAME"
  | true, true => "NA"

/-- Environment of external collaborators consumed by the scanner, per the
contracts in the spec (coordinate lift tool, sequence source, k-mer utility,
chromosome length table, and the classifier+smoother pipeline collapsed into
a single oracle from the two regions to the smoothed state table). -/
structure ScanEnv where
  chromLen : String → Nat
  liftToQry : Region → Option Region
  liftToSub : Region → Option Region
  refKmers : Region → List (Nat × Nat)
  density : Region → Region → List Row
  canonical_complement : Nat → Nat
  k_size : Nat

--
-- InvCall
--

/-- Result record of a successful scan (`InvCall`).  `max_inv_den_diff` is
`Option`-valued: `none` models the error `np.max` raises on an empty
selection. -/
structure InvCall where
  region_ref_outer : Region
  region_ref_inner : Region
  region_tig_outer : Region
  region_tig_inner : Region
  region_ref_discovery : Region
  region_tig_discovery : Region
  region_flag : Region
  df : List Row
  svlen : Nat
  id : String
  max_inv_den_diff : Option ℚ
deriving DecidableEq

/-- The `max_inv_den_diff` computation of `InvCall.__init__`: maximum over
rows with `STATE == 2` of `KERN_REV - max(KERN_FWD, KERN_FWDREV)`; `none`
when the selection is empty (where `np.max` would raise). -/
def max_inv_den_diff_df (df : List Row) : Option ℚ :=
  match (df.filter (fun r => r.STATE = 2)).map
      (fun r => r.KERN_REV - max r.KERN_FWD r.KERN_FWDREV) with
  | [] => none
  | x :: xs => some (xs.foldl max x)

/-- `InvCall.__init__`: stores the regions and table and derives `svlen`,
`id` (format `{chrom}-{pos + 1}-INV-{svlen}`) and `max_inv_den_diff`. -/
def mkInvCall (region_ref_outer region_ref_inner region_tig_outer region_tig_inner
    region_ref_discovery region_tig_discovery region_flag : Region) (df : List Row) : InvCall :=
  { region_ref_outer := region_ref_outer
    region_ref_inner := region_ref_inner
    region_tig_outer := region_tig_outer
    region_tig_inner := region_tig_inner
    region_ref_discovery := region_ref_discovery
    region_tig_discovery := region_tig_discovery
    region_flag := region_flag
    df := df
    svlen := region_ref_outer.length
    id := region_ref_outer.chrom ++ "-" ++ toString (region_ref_outer.pos + 1)
      ++ "-INV-" ++ toString region_ref_outer.length
    max_inv_den_diff := max_inv_den_diff_df df }

--
-- Flank annotation (`annotate_inv_dup_mers`)
--

/-- Canonical reference k-mer set of the upstream duplication region
`[region_ref_outer.pos, region_ref_inner.pos)`. -/
def ref_kmer_set_up (env : ScanEnv) (region_ref_outer region_ref_inner : Region) : List Nat :=
  (env.refKmers ⟨region_ref_outer.chrom, region_ref_outer.pos, region_ref_inner.pos⟩).map
    (fun kc => env.canonical_complement kc.1)

/-- Canonical reference k-mer set of the downstream duplication region
`[region_ref_inner.end, region_ref_outer.end)`. -/
def ref_kmer_set_dn (env : ScanEnv) (region_ref_outer region_ref_inner : Region) : List Nat :=
  (env.refKmers ⟨region_ref_outer.chrom, region_ref_inner.end_, region_ref_outer.end_⟩).map
    (fun kc => env.canonical_complement kc.1)

/-- Per-row body of `annotate_inv_dup_mers`: `TIG_INDEX = INDEX +
region_tig_discovery.pos`; `FLANK` is `UP`/`DN` when `TIG_INDEX` falls in
`[dup_tig.pos, dup_tig.end - k_size)` of the respective duplication window
(the `DN` assignment is applied second in the source and therefore wins on
overlap); `MATCH` comes from `KMER_LOC_STATE` looked up with the raw `KMER`
value, with `NA` replaced by missing. -/
def annotate_row (k_size : Nat) (set_up set_dn : List Nat)
    (region_dup_tig_up region_dup_tig_dn : Region) (tig_discovery_pos : Nat)
    (row : Row) : Row :=
  let tig_index : ℤ := (row.INDEX : ℤ) + (tig_discovery_pos : ℤ)
  let flank : Option String :=
    if (region_dup_tig_dn.pos : ℤ) ≤ tig_index ∧
        tig_index < (region_dup_tig_dn.end_ : ℤ) - (k_size : ℤ) then some "DN"
    else if (region_dup_tig_up.pos : ℤ) ≤ tig_index ∧
        tig_index < (region_dup_tig_up.end_ : ℤ) - (k_size : ℤ) then some "UP"
    else none
  let mtch : Option String :=
    match flank with
    | some f =>
      let v :=
        if f = "UP" then
          KMER_LOC_STATE (decide (row.KMER ∈ set_up)) (decide (row.KMER ∈ set_dn))
        else
          KMER_LOC_STATE (decide (row.KMER ∈ set_dn)) (decide (row.KMER ∈ set_up))
      if v = "NA" then none else some v
    | none => none
  { row with FLANK := flank, MATCH := mtch }

/-- `annotate_inv_dup_mers(df, region_ref_outer, region_ref_inner,
region_tig_outer, region_tig_inner, region_tig_discovery, ref_fa, k_util)`:
derives the duplication regions, builds the canonical reference k-mer sets,
and annotates every row with `FLANK` and `MATCH`. -/
def annotate_inv_dup_mers (env : ScanEnv) (df : List Row)
    (region_ref_outer region_ref_inner region_tig_outer region_tig_inner
      region_tig_discovery : Region) : List Row :=
  let set_up := ref_kmer_set_up env region_ref_outer region_ref_inner
  let set_dn := ref_kmer_set_dn env region_ref_outer region_ref_inner
  let region_dup_tig_up : Region :=
    ⟨region_tig_outer.chrom, region_tig_outer.pos, region_tig_inner.pos⟩
  let region_dup_tig_dn : Region :=
    ⟨region_tig_outer.chrom, region_tig_inner.end_, region_tig_outer.end_⟩
  df.map (annotate_row env.k_size set_up set_dn region_dup_tig_up region_dup_tig_dn
    region_tig_discovery.pos)

--
-- The scanner (`scan_for_inv`)
--

/-- Balance fraction chosen by the expand branch of `scan_for_inv`: with more
than two runs, `0.25` when the first state is FWD, else `0.75` when the last
state is FWD, else `0.5`; with two runs or fewer, always `0.5`. -/
def chooseBalance (condensed_states : List Nat) : ℚ :=
  if 2 < condensed_states.length then
    if condensed_states.headD 9 = 0 then 1 / 4
    else if condensed_states.getLastD 9 = 0 then 3 / 4
    else 1 / 2
  else 1 / 2

/-- `expand_bp = np.int32(len(region_ref) * EXPAND_FACTOR)` with
`EXPAND_FACTOR = 1.5`: truncation of a non-negative value is floor
division. -/
def expandBp (l : Nat) : Nat := 3 * l / 2

/-- Outer contig breakpoint region built after the loop: from the start index
of the second segment to the end index of the second-to-last segment plus one
k-mer length, offset by the lifted contig region position. -/
def region_tig_outer_of (k_size : Nat) (state_rl : List Seg) (region_tig : Region) : Region :=
  ⟨region_tig.chrom,
    (state_rl.getD 1 dSeg).start + region_tig.pos,
    (state_rl.getD (state_rl.length - 2) dSeg).stop + region_tig.pos + k_size⟩

/-- Inner contig breakpoint region built after the loop: from the start index
of the first strictly-inverted segment to the end index of the last
strictly-inverted segment plus one k-mer length, offset by the lifted contig
region position. -/
def region_tig_inner_of (k_size : Nat) (state_rl : List Seg) (region_tig : Region) : Region :=
  let state_rl_inv := state_rl.filter (fun s => s.state = 2)
  ⟨region_tig.chrom,
    (state_rl_inv.headD dSeg).start + region_tig.pos,
    (state_rl_inv.getLastD dSeg).stop + region_tig.pos + k_size⟩

/-- Post-loop characterization of a found region (`scan_for_inv` lines after
the `break`): REV-run existence and length checks, the structural
first/last-FWD check (`RuntimeError` on violation), breakpoint extraction,
lift back to reference coordinates (an unhandled `None` from the lift crashes
with a `TypeError`/`AttributeError` in the source, modelled as
`Except.error`), the reciprocal proportion checks, flank annotation, and
`InvCall` construction. -/
def characterize_found_region (env : ScanEnv) (state_rl : List Seg) (df : List Row)
    (region_tig region_ref region_flag : Region) : Except String (Option InvCall) :=
  if ¬ state_rl.any (fun s => s.state = 2) then Except.ok none
  else if ((state_rl.filter (fun s => s.state = 2)).map Seg.count).foldl max 0
      < MIN_INV_KMER_RUN then Except.ok none
  else if ¬ (state_rl.headD dSeg).state = 0 ∨ ¬ (state_rl.getLastD dSeg).state = 0 then
    Except.error "RuntimeError: Found INV region not flanked by reference sequence (program bug)"
  else
    let region_tig_outer := region_tig_outer_of env.k_size state_rl region_tig
    let region_tig_inner := region_tig_inner_of env.k_size state_rl region_tig
    match env.liftToSub region_tig_outer with
    | none => Except.error "TypeError: object of type NoneType has no len"
    | some region_ref_outer =>
      if (region_ref_outer.length : ℚ) < (region_tig_outer.length : ℚ) * MIN_TIG_REF_PROP then
        Except.ok none
      else if (region_tig_outer.length : ℚ) < (region_ref_outer.length : ℚ) * MIN_TIG_REF_PROP then
        Except.ok none
      else
        match env.liftToSub region_tig_inner with
        | none => Except.error "AttributeError: NoneType object has no attribute pos"
        | some region_ref_inner =>
          Except.ok (some (mkInvCall region_ref_outer region_ref_inner
            region_tig_outer region_tig_inner region_ref region_tig region_flag
            (annotate_inv_dup_mers env df region_ref_outer region_ref_inner
              region_tig_outer region_tig_inner region_ref)))

/-- One iteration of the `while True` scan loop.  `Sum.inl` is a final answer
(`Except.error` = uncaught Python exception, `Except.ok none` = no call,
`Except.ok (some c)` = inversion call); `Sum.inr r2` continues the loop with
the expanded region.  `expansion_count` is the value before the iteration;
the source increments it right after a successful lift. -/
def scanStep (env : ScanEnv) (region_flag region_ref : Region) (expansion_count : Nat) :
    Except String (Option InvCall) ⊕ Region :=
  match env.liftToQry region_ref with
  | none => Sum.inl (Except.ok none)
  | some region_tig =>
    let ec := expansion_count + 1
    if env.refKmers region_ref = [] then Sum.inl (Except.ok none)
    else if MAX_REF_KMER_COUNT < ((env.refKmers region_ref).map Prod.snd).foldl max 0 then
      Sum.inl (Except.ok none)
    else
      let df := env.density region_ref region_tig
      if df = [] then Sum.inl (Except.ok none)
      else
        let state_rl := rl_encoder df
        let condensed_states := state_rl.map Seg.state
        if state_rl.length = 1 ∧ condensed_states.headD 9 = 0 ∧ MIN_EXP_COUNT ≤ ec then
          Sum.inl (Except.ok none)
        else if 2 < condensed_states.length ∧ condensed_states.headD 9 = 0 ∧
            condensed_states.getLastD 9 = 0 then
          Sum.inl (characterize_found_region env state_rl df region_tig region_ref region_flag)
        else
          let region_ref2 := Region.expand (env.chromLen region_ref.chrom) region_ref
            (expandBp region_ref.length) (chooseBalance condensed_states)
          if region_ref2.length = region_ref.length then Sum.inl (Except.ok none)
          else Sum.inr region_ref2

/-- Fuel-indexed iteration of the scan loop (`none` = fuel exhausted; the
termination theorem shows the fuel used by `scan_for_inv` always suffices). -/
def scanLoop (env : ScanEnv) (region_flag : Region) :
    Nat → Region → Nat → Option (Except String (Option InvCall))
  | 0, _, _ => none
  | fuel + 1, region_ref, ec =>
    match scanStep env region_flag region_ref ec with
    | Sum.inl ans => some ans
    | Sum.inr r2 => scanLoop env region_flag fuel r2 (ec + 1)

/-- `scan_for_inv`: copy the flagged region, expand it by `INITIAL_EXPAND`
(clamped to the chromosome), and run the scan loop. -/
def scan_for_inv (env : ScanEnv) (region : Region) : Option (Except String (Option InvCall)) :=
  let region_flag := region
  let region_ref := Region.expand (env.chromLen region.chrom) region INITIAL_EXPAND (1 / 2)
  scanLoop env region_flag (env.chromLen region.chrom + 1) region_ref 0

--
-- Concrete fixtures used to witness the theorems below
--

/-- A smoothed state table with a FWD row, a 100-row REV run, and a FWD row:
the minimal clean-inversion pattern. -/
def dfS : List Row :=
  (List.range 102).map (fun i =>
    ⟨1, i, if i = 0 then 0 else if i ≤ 100 then 2 else 0, 0, 0, 0, none, none⟩)

/-- Environment where both lifts are the identity and the density oracle
always reports the clean-inversion table `dfS`. -/
def envS : ScanEnv :=
  { chromLen := fun _ => 10000
    liftToQry := fun r => some r
    liftToSub := fun r => some r
    refKmers := fun _ => [(1, 1)]
    density := fun _ _ => dfS
    canonical_complement := fun k => k
    k_size := 32 }

/-- Flagged region for the clean-inversion scenario. -/
def regS : Region := ⟨"c", 4500, 4600⟩

/-- Outer (= inner) contig breakpoint region the scan derives from `dfS`. -/
def rOuterS : Region := ⟨"c", 2501, 2632⟩

/-- Reference discovery region after the initial expansion of `regS`. -/
def rRefS : Region := ⟨"c", 2500, 6600⟩

/-- The annotated table of the clean-inversion call. -/
def df2S : List Row := annotate_inv_dup_mers envS dfS rOuterS rOuterS rOuterS rOuterS rRefS

/-- The inversion call returned by `scan_for_inv envS regS`. -/
def callS : InvCall := mkInvCall rOuterS rOuterS rOuterS rOuterS rRefS rRefS regS df2S

/-- A state table that smooths to a single FWD run of five k-mers. -/
def dfSingleFwd : List Row :=
  (List.range 5).map (fun i => ⟨1, i, 0, 0, 0, 0, none, none⟩)

/-- Environment whose chromosome is fully covered by the scanned region, so
expansion is clamped to a no-op; the density oracle reports only FWD signal
and the lift back to reference always fails. -/
def envBoundary : ScanEnv :=
  { chromLen := fun _ => 50
    liftToQry := fun r => some r
    liftToSub := fun _ => none
    refKmers := fun _ => [(1, 1)]
    density := fun _ _ => dfSingleFwd
    canonical_complement := fun k => k
    k_size := 1 }

/-- Region spanning the whole 50 bp chromosome of `envBoundary`. -/
def rBoundary : Region := ⟨"c", 0, 50⟩

/-- Same as `envBoundary` but on a long chromosome, so expansion grows. -/
def envGrow : ScanEnv :=
  { envBoundary with chromLen := fun _ => 500 }

/-- Environment whose initial lift onto the contig fails. -/
def envLiftFail : ScanEnv :=
  { envBoundary with liftToQry := fun _ => none }

/-- A found-state run-length encoding: FWD anchor, 150 REV k-mers, FWD
anchor. -/
def rlFound : List Seg := [⟨0, 5, 0, 4⟩, ⟨2, 150, 5, 154⟩, ⟨0, 5, 155, 159⟩]

/-- Environment for the flank-annotation witnesses: canonicalization folds
k-mer values mod 100, and only the region ending at 3 (the upstream
duplication below) has reference k-mers. -/
def envCanon : ScanEnv :=
  { chromLen := fun _ => 1000
    liftToQry := fun r => some r
    liftToSub := fun r => some r
    refKmers := fun r => if r.end_ = 3 then [(5, 1)] else []
    density := fun _ _ => []
    canonical_complement := fun k => k % 100
    k_size := 1 }

/-- Reference/contig outer breakpointers for the annotation witnesses. -/
def rAnnOuter : Region := ⟨"r", 0, 10⟩

/-- Reference/contig inner breakpoints for the annotation witnesses. -/
def rAnnInner : Region := ⟨"r", 3, 5⟩

/-- One-row table whose k-mer `105` is in the upstream flank window and is
canonically (but not literally) in the upstream reference set. -/
def dfAnn : List Row := [⟨105, 0, 2, 0, 0, 0, none, none⟩]

/-- A one-REV-row table for the `InvCall` constructor witness. -/
def dfInv : List Row := [⟨1, 0, 2, 1, 0, 5, none, none⟩]

/-- Environment whose lift back to reference collapses every region to an
empty one, so the reciprocal proportion check fails. -/
def envPropFail : ScanEnv :=
  { envS with liftToSub := fun _ => some ⟨"c", 0, 0⟩ }

/-- The row of `dfAnn` after flank annotation under `envCanon`: it lies in the
upstream flank window but matches neither duplication set by raw value. -/
def rowAnnotated : Row := ⟨105, 0, 2, 0, 0, 0, some "UP", none⟩

--
-- Helper lemmas
--

theorem foldl_max_le_init {α : Type} [LinearOrder α] :
    ∀ (xs : List α) (a : α), a ≤ xs.foldl max a := by
  intro xs
  induction xs with
  | nil => intro a; exact le_refl a
  | cons x xs ih =>
    intro a
    exact le_trans (le_max_left a x) (ih (max a x))

theorem foldl_max_mem_le {α : Type} [LinearOrder α] :
    ∀ (xs : List α) (a y : α), y ∈ xs → y ≤ xs.foldl max a := by
  intro xs
  induction xs with
  | nil => intro a y hy; cases hy
  | cons x xs ih =>
    intro a y hy
    rcases List.mem_cons.mp hy with h | h
    · subst h
      exact le_trans (le_max_right a y) (foldl_max_le_init xs (max a y))
    · exact ih (max a x) y h

theorem foldl_max_eq_or_mem {α : Type} [LinearOrder α] :
    ∀ (xs : List α) (a : α), xs.foldl max a = a ∨ xs.foldl max a ∈ xs := by
  intro xs
  induction xs with
  | nil => intro a; exact Or.inl rfl
  | cons x xs ih =>
    intro a
    rcases ih (max a x) with h | h
    · rcases max_choice a x with hm | hm
      · exact Or.inl (by rw [List.foldl_cons, h, hm])
      · exact Or.inr (by rw [List.foldl_cons, h, hm]; exact List.mem_cons_self x xs)
    · exact Or.inr (List.mem_cons_of_mem x h)

theorem rl_encoder_go_ne_nil :
    ∀ (rows : List Row) (st cnt i0 il : Nat), rl_encoder_go st cnt i0 il rows ≠ [] := by
  intro rows
  induction rows with
  | nil => intro st cnt i0 il h; simp [rl_encoder_go] at h
  | cons r rs ih =>
    intro st cnt i0 il h
    rw [rl_encoder_go] at h
    by_cases hs : r.STATE = st
    · rw [if_pos hs] at h; exact ih st (cnt + 1) i0 r.INDEX h
    · rw [if_neg hs] at h; exact List.cons_ne_nil _ _ h

theorem rl_encoder_eq_nil_iff (df : List Row) : rl_encoder df = [] ↔ df = [] := by
  cases df with
  | nil => simp [rl_encoder]
  | cons r rs =>
    constructor
    · intro h; exact absurd h (rl_encoder_go_ne_nil rs r.STATE 1 r.INDEX r.INDEX)
    · intro h; cases h

theorem rl_encoder_go_state_mem :
    ∀ (rows : List Row) (st cnt i0 il : Nat) (s : Seg),
      s ∈ rl_encoder_go st cnt i0 il rows → s.state = st ∨ ∃ r ∈ rows, r.STATE = s.state := by
  intro rows
  induction rows with
  | nil =>
    intro st cnt i0 il s hs
    rw [rl_encoder_go, List.mem_singleton] at hs
    exact Or.inl (by rw [hs])
  | cons r rs ih =>
    intro st cnt i0 il s hs
    rw [rl_encoder_go] at hs
    by_cases h : r.STATE = st
    · rw [if_pos h] at hs
      rcases ih st (cnt + 1) i0 r.INDEX s hs with h1 | ⟨r2, hr2, h2⟩
      · exact Or.inl h1
      · exact Or.inr ⟨r2, List.mem_cons_of_mem r hr2, h2⟩
    · rw [if_neg h, List.mem_cons] at hs
      rcases hs with h1 | h1
      · exact Or.inl (by rw [h1])
      · rcases ih r.STATE 1 r.INDEX r.INDEX s h1 with h2 | ⟨r2, hr2, h2⟩
        · exact Or.inr ⟨r, List.mem_cons_self r rs, h2.symm⟩
        · exact Or.inr ⟨r2, List.mem_cons_of_mem r hr2, h2⟩

theorem rl_encoder_state_mem (df : List Row) (s : Seg) (hs : s ∈ rl_encoder df) :
    ∃ r ∈ df, r.STATE = s.state := by
  cases df with
  | nil => simp [rl_encoder] at hs
  | cons r rs =>
    rw [rl_encoder] at hs
    rcases rl_encoder_go_state_mem rs r.STATE 1 r.INDEX r.INDEX s hs with h | ⟨r2, hr2, h2⟩
    · exact ⟨r, List.mem_cons_self r rs, h.symm⟩
    · exact ⟨r2, List.mem_cons_of_mem r hr2, h2⟩

theorem Region.expand_chrom (L : Nat) (r : Region) (bp : Nat) (b : ℚ) :
    (Region.expand L r bp b).chrom = r.chrom := rfl

theorem Region.expand_end_le (L : Nat) (r : Region) (bp : Nat) (b : ℚ) :
    (Region.expand L r bp b).end_ ≤ L := min_le_left _ _

theorem Region.expand_length_ge (L : Nat) (r : Region) (bp : Nat) (b : ℚ)
    (h : r.end_ ≤ L) : r.length ≤ (Region.expand L r bp b).length := by
  have hpos : (Region.expand L r bp b).pos ≤ r.pos := Nat.sub_le _ _
  have hend : r.end_ ≤ (Region.expand L r bp b).end_ :=
    le_min h (Nat.le_add_right _ _)
  exact tsub_le_tsub hend hpos

theorem annotate_row_STATE (k : Nat) (su sd : List Nat) (u d : Region) (p : Nat) (row : Row) :
    (annotate_row k su sd u d p row).STATE = row.STATE := rfl

theorem annotate_row_KMER (k : Nat) (su sd : List Nat) (u d : Region) (p : Nat) (row : Row) :
    (annotate_row k su sd u d p row).KMER = row.KMER := rfl

theorem annotate_row_INDEX (k : Nat) (su sd : List Nat) (u d : Region) (p : Nat) (row : Row) :
    (annotate_row k su sd u d p row).INDEX = row.INDEX := rfl

theorem scanStep_inr (env : ScanEnv) (fl r : Region) (ec : Nat) (r2 : Region)
    (h : scanStep env fl r ec = Sum.inr r2) :
    (∃ rt, env.liftToQry r = some rt ∧
      r2 = Region.expand (env.chromLen r.chrom) r (expandBp r.length)
        (chooseBalance ((rl_encoder (env.density r rt)).map Seg.state))) ∧
    r2.length ≠ r.length := by
  cases hq : env.liftToQry r with
  | none => rw [scanStep, hq] at h; exact absurd h (by simp)
  | some rt =>
    rw [scanStep, hq] at h
    dsimp only at h
    by_cases h1 : env.refKmers r = []
    · rw [if_pos h1] at h; exact absurd h (by simp)
    · rw [if_neg h1] at h
      by_cases h2 : MAX_REF_KMER_COUNT < ((env.refKmers r).map Prod.snd).foldl max 0
      · rw [if_pos h2] at h; exact absurd h (by simp)
      · rw [if_neg h2] at h
        by_cases h3 : env.density r rt = []
        · rw [if_pos h3] at h; exact absurd h (by simp)
        · rw [if_neg h3] at h
          by_cases h4 : (rl_encoder (env.density r rt)).length = 1 ∧
              ((rl_encoder (env.density r rt)).map Seg.state).headD 9 = 0 ∧
              MIN_EXP_COUNT ≤ ec + 1
          · rw [if_pos h4] at h; exact absurd h (by simp)
          · rw [if_neg h4] at h
            by_cases h5 : 2 < ((rl_encoder (env.density r rt)).map Seg.state).length ∧
                ((rl_encoder (env.density r rt)).map Seg.state).headD 9 = 0 ∧
                ((rl_encoder (env.density r rt)).map Seg.state).getLastD 9 = 0
            · rw [if_pos h5] at h; exact absurd h (by simp)
            · rw [if_neg h5] at h
              by_cases h6 : (Region.expand (env.chromLen r.chrom) r (expandBp r.length)
                  (chooseBalance ((rl_encoder (env.density r rt)).map Seg.state))).length
                  = r.length
              · rw [if_pos h6] at h; exact absurd h (by simp)
              · rw [if_neg h6] at h
                cases h
                exact ⟨⟨rt, rfl, rfl⟩, h6⟩

theorem scanStep_inl (env : ScanEnv) (fl r : Region) (ec : Nat)
    (ans : Except String (Option InvCall)) (h : scanStep env fl r ec = Sum.inl ans) :
    ans = Except.ok none ∨ ∃ rt, env.liftToQry r = some rt ∧
      characterize_found_region env (rl_encoder (env.density r rt)) (env.density r rt)
        rt r fl = ans := by
  cases hq : env.liftToQry r with
  | none =>
    rw [scanStep, hq] at h
    cases h
    exact Or.inl rfl
  | some rt =>
    rw [scanStep, hq] at h
    dsimp only at h
    by_cases h1 : env.refKmers r = []
    · rw [if_pos h1] at h; cases h; exact Or.inl rfl
    · rw [if_neg h1] at h
      by_cases h2 : MAX_REF_KMER_COUNT < ((env.refKmers r).map Prod.snd).foldl max 0
      · rw [if_pos h2] at h; cases h; exact Or.inl rfl
      · rw [if_neg h2] at h
        by_cases h3 : env.density r rt = []
        · rw [if_pos h3] at h; cases h; exact Or.inl rfl
        · rw [if_neg h3] at h
          by_cases h4 : (rl_encoder (env.density r rt)).length = 1 ∧
              ((rl_encoder (env.density r rt)).map Seg.state).headD 9 = 0 ∧
              MIN_EXP_COUNT ≤ ec + 1
          · rw [if_pos h4] at h; cases h; exact Or.inl rfl
          · rw [if_neg h4] at h
            by_cases h5 : 2 < ((rl_encoder (env.density r rt)).map Seg.state).length ∧
                ((rl_encoder (env.density r rt)).map Seg.state).headD 9 = 0 ∧
                ((rl_encoder (env.density r rt)).map Seg.state).getLastD 9 = 0
            · rw [if_pos h5] at h
              cases h
              exact Or.inr ⟨rt, rfl, rfl⟩
            · rw [if_neg h5] at h
              by_cases h6 : (Region.expand (env.chromLen r.chrom) r (expandBp r.length)
                  (chooseBalance ((rl_encoder (env.density r rt)).map Seg.state))).length
                  = r.length
              · rw [if_pos h6] at h; cases h; exact Or.inl rfl
              · rw [if_neg h6] at h; exact absurd h (by simp)

theorem scanLoop_some (env : ScanEnv) (fl : Region) :
    ∀ (fuel : Nat) (r : Region) (ec : Nat) (ans : Except String (Option InvCall)),
      scanLoop env fl fuel r ec = some ans →
      ∃ r2 ec2, scanStep env fl r2 ec2 = Sum.inl ans := by
  intro fuel
  induction fuel with
  | zero => intro r ec ans h; exact absurd h (by simp [scanLoop])
  | succ fuel ih =>
    intro r ec ans h
    rw [scanLoop] at h
    cases hs : scanStep env fl r ec with
    | inl a =>
      rw [hs] at h
      dsimp only at h
      cases h
      exact ⟨r, ec, hs⟩
    | inr r2 =>
      rw [hs] at h
      dsimp only at h
      exact ih r2 (ec + 1) ans h

theorem characterize_ok_some (env : ScanEnv) (rl : List Seg) (df : List Row)
    (rt rr fl : Region) (c : InvCall)
    (h : characterize_found_region env rl df rt rr fl = Except.ok (some c)) :
    ∃ rro rri,
      rl.any (fun s => s.state = 2) = true ∧
      ¬ ((rl.filter (fun s => s.state = 2)).map Seg.count).foldl max 0 < MIN_INV_KMER_RUN ∧
      (rl.headD dSeg).state = 0 ∧ (rl.getLastD dSeg).state = 0 ∧
      env.liftToSub (region_tig_outer_of env.k_size rl rt) = some rro ∧
      ¬ ((rro.length : ℚ) <
        ((region_tig_outer_of env.k_size rl rt).length : ℚ) * MIN_TIG_REF_PROP) ∧
      ¬ (((region_tig_outer_of env.k_size rl rt).length : ℚ) <
        (rro.length : ℚ) * MIN_TIG_REF_PROP) ∧
      env.liftToSub (region_tig_inner_of env.k_size rl rt) = some rri ∧
      c = mkInvCall rro rri (region_tig_outer_of env.k_size rl rt)
        (region_tig_inner_of env.k_size rl rt) rr rt fl
        (annotate_inv_dup_mers env df rro rri (region_tig_outer_of env.k_size rl rt)
          (region_tig_inner_of env.k_size rl rt) rr) := by
  rw [characterize_found_region] at h
  by_cases h1 : ¬ rl.any (fun s => s.state = 2)
  · rw [if_pos h1] at h; exact absurd h (by simp)
  · rw [if_neg h1] at h
    by_cases h2 : ((rl.filter (fun s => s.state = 2)).map Seg.count).foldl max 0
        < MIN_INV_KMER_RUN
    · rw [if_pos h2] at h; exact absurd h (by simp)
    · rw [if_neg h2] at h
      by_cases h3 : ¬ (rl.headD dSeg).state = 0 ∨ ¬ (rl.getLastD dSeg).state = 0
      · rw [if_pos h3] at h; exact absurd h (by simp)
      · rw [if_neg h3] at h
        push_neg at h3
        dsimp only at h
        cases ho : env.liftToSub (region_tig_outer_of env.k_size rl rt) with
        | none => rw [ho] at h; exact absurd h (by simp)
        | some rro =>
          rw [ho] at h
          dsimp only at h
          by_cases h4 : (rro.length : ℚ) <
              ((region_tig_outer_of env.k_size rl rt).length : ℚ) * MIN_TIG_REF_PROP
          · rw [if_pos h4] at h; exact absurd h (by simp)
          · rw [if_neg h4] at h
            by_cases h5 : ((region_tig_outer_of env.k_size rl rt).length : ℚ) <
                (rro.length : ℚ) * MIN_TIG_REF_PROP
            · rw [if_pos h5] at h; exact absurd h (by simp)
            · rw [if_neg h5] at h
              cases hi : env.liftToSub (region_tig_inner_of env.k_size rl rt) with
              | none => rw [hi] at h; exact absurd h (by simp)
              | some rri =>
                rw [hi] at h
                dsimp only at h
                cases h
                refine ⟨rro, rri, ?_, h2, h3.1, h3.2, rfl, h4, h5, rfl, rfl⟩
                exact Bool.of_not_eq_false (by simpa using h1)

theorem max_inv_den_diff_df_spec (df : List Row) (m : ℚ)
    (h : max_inv_den_diff_df df = some m) :
    (∀ r ∈ df, r.STATE = 2 → r.KERN_REV - max r.KERN_FWD r.KERN_FWDREV ≤ m) ∧
    ∃ r ∈ df, r.STATE = 2 ∧ m = r.KERN_REV - max r.KERN_FWD r.KERN_FWDREV := by
  rw [max_inv_den_diff_df] at h
  cases hv : (df.filter (fun r => r.STATE = 2)).map
      (fun r => r.KERN_REV - max r.KERN_FWD r.KERN_FWDREV) with
  | nil => rw [hv] at h; cases h
  | cons x xs =>
    rw [hv] at h
    dsimp only at h
    injection h with h
    constructor
    · intro r hr h2
      have hm : r.KERN_REV - max r.KERN_FWD r.KERN_FWDREV ∈ x :: xs := by
        rw [← hv]
        exact List.mem_map_of_mem _ (List.mem_filter.mpr ⟨hr, by simpa using h2⟩)
      rcases List.mem_cons.mp hm with h3 | h3
      · rw [h3, ← h]; exact foldl_max_le_init xs x
      · rw [← h]; exact foldl_max_mem_le xs x _ h3
    · have hmem : m ∈ x :: xs := by
        rcases foldl_max_eq_or_mem xs x with he | he
        · rw [← h, he]; exact List.mem_cons_self x xs
        · rw [← h]; exact List.mem_cons_of_mem x he
      rw [← hv] at hmem
      obtain ⟨r, hr, hfr⟩ := List.mem_map.mp hmem
      have hr2 := List.mem_filter.mp hr
      exact ⟨r, hr2.1, by simpa using hr2.2, hfr.symm⟩

theorem max_inv_den_diff_df_isSome (df : List Row)
    (h : df.filter (fun r => r.STATE = 2) ≠ []) :
    ∃ m, max_inv_den_diff_df df = some m := by
  rw [max_inv_den_diff_df]
  cases hv : (df.filter (fun r => r.STATE = 2)).map
      (fun r => r.KERN_REV - max r.KERN_FWD r.KERN_FWDREV) with
  | nil => exact absurd (List.map_eq_nil_iff.mp hv) h
  | cons x xs => exact ⟨xs.foldl max x, rfl⟩

theorem annotate_exists_state (env : ScanEnv) (df : List Row)
    (rro rri rto rti rtd : Region) (hx : ∃ r ∈ df, r.STATE = 2) :
    ∃ r2 ∈ annotate_inv_dup_mers env df rro rri rto rti rtd, r2.STATE = 2 := by
  obtain ⟨r, hr, h2⟩ := hx
  unfold annotate_inv_dup_mers
  exact ⟨_, List.mem_map_of_mem _ hr, by rw [annotate_row_STATE]; exact h2⟩

theorem found_rl_length (rl : List Seg) (hany : rl.any (fun s => s.state = 2) = true)
    (hh : (rl.headD dSeg).state = 0) (hl : (rl.getLastD dSeg).state = 0) :
    2 < rl.length := by
  match rl with
  | [] => simp at hany
  | [a] =>
    simp only [List.headD] at hh
    simp only [List.any, Bool.or_false] at hany
    rw [decide_eq_true_eq] at hany
    rw [hh] at hany
    cases hany
  | [a, b] =>
    simp only [List.headD] at hh
    have hlb : (List.getLastD [a, b] dSeg) = b := rfl
    rw [hlb] at hl
    simp only [List.any, Bool.or_false] at hany
    rw [Bool.or_eq_true, decide_eq_true_eq, decide_eq_true_eq] at hany
    rcases hany with h | h
    · rw [hh] at h; cases h
    · rw [hl] at h; cases h
  | a :: b :: c :: rest => simp [List.length]

theorem scanStep_inr_growth (env : ScanEnv) (fl r : Region) (ec : Nat) (r2 : Region)
    (hwf : r.end_ ≤ env.chromLen r.chrom)
    (h : scanStep env fl r ec = Sum.inr r2) :
    r.length < r2.length ∧ r2.chrom = r.chrom ∧ r2.end_ ≤ env.chromLen r2.chrom := by
  obtain ⟨⟨rt, hq, he⟩, hne⟩ := scanStep_inr env fl r ec r2 h
  have hch : r2.chrom = r.chrom := by rw [he]; exact Region.expand_chrom _ _ _ _
  have hle : r.length ≤ r2.length := by
    rw [he]; exact Region.expand_length_ge _ _ _ _ hwf
  refine ⟨lt_of_le_of_ne hle (fun e => hne e.symm), hch, ?_⟩
  rw [hch, he]
  exact Region.expand_end_le _ _ _ _

theorem scanLoop_total (env : ScanEnv) (fl : Region) :
    ∀ (fuel : Nat) (r : Region) (ec : Nat),
      r.end_ ≤ env.chromLen r.chrom →
      env.chromLen r.chrom < fuel + r.length →
      scanLoop env fl fuel r ec ≠ none := by
  intro fuel
  induction fuel with
  | zero =>
    intro r ec hwf hfu
    have : r.length ≤ r.end_ := Nat.sub_le _ _
    omega
  | succ fuel ih =>
    intro r ec hwf hfu
    rw [scanLoop]
    cases hs : scanStep env fl r ec with
    | inl a => simp
    | inr r2 =>
      dsimp only
      obtain ⟨hlt, hch, hwf2⟩ := scanStep_inr_growth env fl r ec r2 hwf hs
      apply ih r2 (ec + 1) hwf2
      rw [hch]
      omega

--
-- Claims
--

/-- Claim C7 (confirmed): every constructed `InvCall` has `svlen` equal to the
outer reference region length; its `id` string is composed of the outer
reference region chromosome, its 1-based start position (`pos + 1`) and
`svlen`; and `max_inv_den_diff` is the maximum over `STATE = REV` rows of
`KERN_REV - max(KERN_FWD, KERN_FWDREV)`: whenever the REV selection is
non-empty the field is `some m` with `m` an upper bound of those differences
that is attained at a REV row. -/
theorem c7_invcall_fields (rro rri rto rti rrd rtd rfg : Region) (df : List Row) :
    (mkInvCall rro rri rto rti rrd rtd rfg df).svlen = rro.length ∧
    (mkInvCall rro rri rto rti rrd rtd rfg df).id =
      rro.chrom ++ "-" ++ toString (rro.pos + 1) ++ "-INV-"
        ++ toString (mkInvCall rro rri rto rti rrd rtd rfg df).svlen ∧
    (df.filter (fun r => r.STATE = 2) ≠ [] →
      ∃ m, (mkInvCall rro rri rto rti rrd rtd rfg df).max_inv_den_diff = some m ∧
        (∀ r ∈ df, r.STATE = 2 → r.KERN_REV - max r.KERN_FWD r.KERN_FWDREV ≤ m) ∧
        ∃ r ∈ df, r.STATE = 2 ∧ m = r.KERN_REV - max r.KERN_FWD r.KERN_FWDREV) := by
  refine ⟨rfl, rfl, ?_⟩
  intro hne
  obtain ⟨m, hm⟩ := max_inv_den_diff_df_isSome df hne
  obtain ⟨hub, hat⟩ := max_inv_den_diff_df_spec df m hm
  exact ⟨m, hm, hub, hat⟩

/-- Witness for C7 at the one-REV-row table `dfInv`. -/
theorem c7_witness :
    ∃ m, (mkInvCall rAnnOuter rAnnInner rAnnOuter rAnnInner rAnnOuter rAnnOuter
        rAnnOuter dfInv).max_inv_den_diff = some m ∧
      (∀ r ∈ dfInv, r.STATE = 2 → r.KERN_REV - max r.KERN_FWD r.KERN_FWDREV ≤ m) ∧
      ∃ r ∈ dfInv, r.STATE = 2 ∧ m = r.KERN_REV - max r.KERN_FWD r.KERN_FWDREV :=
  (c7_invcall_fields rAnnOuter rAnnInner rAnnOuter rAnnInner rAnnOuter rAnnOuter
    rAnnOuter dfInv).2.2 (by decide)

/-- Claim C10 (confirmed): whenever the scan returns an inversion call, the
`STATE = REV` selection of the call's annotated table is non-empty, so the
maximum taken by the constructor is well-defined (`max_inv_den_diff` is
`some`); the empty-input error branch is unreachable from the scanner. -/
theorem c10_max_nonempty (env : ScanEnv) (region : Region) (c : InvCall)
    (h : scan_for_inv env region = some (Except.ok (some c))) :
    c.df.filter (fun r => r.STATE = 2) ≠ [] ∧ c.max_inv_den_diff.isSome := by
  rw [scan_for_inv] at h
  obtain ⟨r2, ec2, hstep⟩ := scanLoop_some env region _ _ _ _ h
  rcases scanStep_inl env region r2 ec2 _ hstep with hnone | ⟨rt, hq, hchr⟩
  · simp at hnone
  · obtain ⟨rro, rri, hany, hrun, hh, hl, ho, h4, h5, hi, hc⟩ :=
      characterize_ok_some env _ _ rt r2 region c hchr
    subst hc
    obtain ⟨s, hs, hs2⟩ := List.any_eq_true.mp hany
    have hdf : ∃ r ∈ env.density r2 rt, r.STATE = 2 := by
      obtain ⟨r, hr, hr2⟩ := rl_encoder_state_mem _ s hs
      exact ⟨r, hr, by rw [hr2]; simpa using hs2⟩
    obtain ⟨rx, hrx, hrx2⟩ := annotate_exists_state env (env.density r2 rt) rro rri
      (region_tig_outer_of env.k_size (rl_encoder (env.density r2 rt)) rt)
      (region_tig_inner_of env.k_size (rl_encoder (env.density r2 rt)) rt) r2 hdf
    have hne : (annotate_inv_dup_mers env (env.density r2 rt) rro rri
        (region_tig_outer_of env.k_size (rl_encoder (env.density r2 rt)) rt)
        (region_tig_inner_of env.k_size (rl_encoder (env.density r2 rt)) rt)
        r2).filter (fun r => r.STATE = 2) ≠ [] := by
      intro hfil
      have hmem : rx ∈ (annotate_inv_dup_mers env (env.density r2 rt) rro rri
          (region_tig_outer_of env.k_size (rl_encoder (env.density r2 rt)) rt)
          (region_tig_inner_of env.k_size (rl_encoder (env.density r2 rt)) rt)
          r2).filter (fun r => r.STATE = 2) :=
        List.mem_filter.mpr ⟨hrx, by simpa using hrx2⟩
      rw [hfil] at hmem
      cases hmem
    refine ⟨by simpa [mkInvCall] using hne, ?_⟩
    obtain ⟨m, hm⟩ := max_inv_den_diff_df_isSome _ hne
    simp [mkInvCall, hm]

set_option maxRecDepth 8000 in
/-- Witness for C10: the clean-inversion scenario produces the call `callS`
and its REV selection is non-empty with a defined maximum. -/
theorem c10_witness :
    scan_for_inv envS regS = some (Except.ok (some callS)) ∧
    callS.df.filter (fun r => r.STATE = 2) ≠ [] ∧ callS.max_inv_den_diff.isSome := by
  have h : scan_for_inv envS regS = some (Except.ok (some callS)) := by
    with_unfolding_all rfl
  exact ⟨h, c10_max_nonempty envS regS callS h⟩

/-- Claim C4 (confirmed): whenever `scan_for_inv` returns an `InvCall`, the
outer region lengths satisfy the reciprocal proportion bound
`len(region_ref_outer) >= MIN_TIG_REF_PROP * len(region_tig_outer)` and
`len(region_tig_outer) >= MIN_TIG_REF_PROP * len(region_ref_outer)`; and if
either inequality fails at the post-loop check, the scan returns no call. -/
theorem c4_proportion :
    (∀ (env : ScanEnv) (region : Region) (c : InvCall),
      scan_for_inv env region = some (Except.ok (some c)) →
      (c.region_tig_outer.length : ℚ) * MIN_TIG_REF_PROP ≤ (c.region_ref_outer.length : ℚ) ∧
      (c.region_ref_outer.length : ℚ) * MIN_TIG_REF_PROP ≤ (c.region_tig_outer.length : ℚ)) ∧
    (∀ (env : ScanEnv) (rl : List Seg) (df : List Row) (rt rr fl rro : Region),
      rl.any (fun s => s.state = 2) = true →
      ¬ ((rl.filter (fun s => s.state = 2)).map Seg.count).foldl max 0 < MIN_INV_KMER_RUN →
      (rl.headD dSeg).state = 0 →
      (rl.getLastD dSeg).state = 0 →
      env.liftToSub (region_tig_outer_of env.k_size rl rt) = some rro →
      ((rro.length : ℚ) <
          ((region_tig_outer_of env.k_size rl rt).length : ℚ) * MIN_TIG_REF_PROP ∨
        ((region_tig_outer_of env.k_size rl rt).length : ℚ) <
          (rro.length : ℚ) * MIN_TIG_REF_PROP) →
      characterize_found_region env rl df rt rr fl = Except.ok none) := by
  constructor
  · intro env region c h
    rw [scan_for_inv] at h
    obtain ⟨r2, ec2, hstep⟩ := scanLoop_some env region _ _ _ _ h
    rcases scanStep_inl env region r2 ec2 _ hstep with hnone | ⟨rt, hq, hchr⟩
    · simp at hnone
    · obtain ⟨rro, rri, hany, hrun, hh, hl, ho, h4, h5, hi, hc⟩ :=
        characterize_ok_some env _ _ rt r2 region c hchr
      subst hc
      exact ⟨not_lt.mp h4, not_lt.mp h5⟩
  · intro env rl df rt rr fl rro hany hrun hh hl ho hfail
    rw [characterize_found_region]
    rw [if_neg (not_not_intro hany)]
    rw [if_neg hrun]
    rw [if_neg (fun hcon => hcon.elim (fun hna => hna hh) (fun hnb => hnb hl))]
    dsimp only
    rw [ho]
    dsimp only
    rcases hfail with hL | hR
    · rw [if_pos hL]
    · by_cases hL2 : (rro.length : ℚ) <
          ((region_tig_outer_of env.k_size rl rt).length : ℚ) * MIN_TIG_REF_PROP
      · rw [if_pos hL2]
      · rw [if_neg hL2, if_pos hR]

set_option maxRecDepth 8000 in
/-- Witness for C4: the clean-inversion call satisfies both proportion
inequalities, and an environment whose lift-back collapses the outer region
to an empty one is rejected with no call at a found state. -/
theorem c4_witness :
    ((callS.region_tig_outer.length : ℚ) * MIN_TIG_REF_PROP ≤
        (callS.region_ref_outer.length : ℚ) ∧
      (callS.region_ref_outer.length : ℚ) * MIN_TIG_REF_PROP ≤
        (callS.region_tig_outer.length : ℚ)) ∧
    characterize_found_region envPropFail rlFound [] rBoundary rBoundary rBoundary =
      Except.ok none := by
  constructor
  · exact c4_proportion.1 envS regS callS (by with_unfolding_all rfl)
  · refine c4_proportion.2 envPropFail rlFound [] rBoundary rBoundary rBoundary ⟨"c", 0, 0⟩
      (by decide) (by decide) (by decide) (by decide) (by with_unfolding_all rfl) ?_
    left
    have h1 : (region_tig_outer_of envPropFail.k_size rlFound rBoundary).length = 181 := by
      decide
    have h2 : (Region.length ⟨"c", 0, 0⟩) = 0 := by decide
    rw [h1, h2, MIN_TIG_REF_PROP]
    norm_num

/-- Claim C3 (confirmed): whenever the post-loop characterization accepts a
found state (run-length segments with more than two runs, FWD first and last
states), the outer contig breakpoint region runs from the start index of the
second segment to the end index of the second-to-last segment plus one k-mer
length, the inner contig breakpoint region runs from the start index of the
first REV segment to the end index of the last REV segment plus one k-mer
length (both offset by the lifted contig region start), and both are lifted
back to reference coordinates through the external lift tool. -/
theorem c3_breakpoints (env : ScanEnv) (state_rl : List Seg) (df : List Row)
    (rt rr fl : Region) (c : InvCall)
    (h : characterize_found_region env state_rl df rt rr fl = Except.ok (some c)) :
    2 < state_rl.length ∧
    (state_rl.headD dSeg).state = 0 ∧ (state_rl.getLastD dSeg).state = 0 ∧
    c.region_tig_outer.chrom = rt.chrom ∧
    c.region_tig_outer.pos = (state_rl.getD 1 dSeg).start + rt.pos ∧
    c.region_tig_outer.end_ =
      (state_rl.getD (state_rl.length - 2) dSeg).stop + rt.pos + env.k_size ∧
    c.region_tig_inner.pos =
      ((state_rl.filter (fun s => s.state = 2)).headD dSeg).start + rt.pos ∧
    c.region_tig_inner.end_ =
      ((state_rl.filter (fun s => s.state = 2)).getLastD dSeg).stop + rt.pos + env.k_size ∧
    env.liftToSub c.region_tig_outer = some c.region_ref_outer ∧
    env.liftToSub c.region_tig_inner = some c.region_ref_inner := by
  obtain ⟨rro, rri, hany, hrun, hh, hl, ho, h4, h5, hi, hc⟩ :=
    characterize_ok_some env state_rl df rt rr fl c h
  subst hc
  exact ⟨found_rl_length state_rl hany hh hl, hh, hl, rfl, rfl, rfl, rfl, rfl, ho, hi⟩

set_option maxRecDepth 8000 in
/-- Witness for C3 at the clean-inversion characterization. -/
theorem c3_witness :
    callS.region_tig_outer.pos = ((rl_encoder dfS).getD 1 dSeg).start + rRefS.pos ∧
    callS.region_tig_inner.end_ =
      (((rl_encoder dfS).filter (fun s => s.state = 2)).getLastD dSeg).stop + rRefS.pos
        + envS.k_size ∧
    envS.liftToSub callS.region_tig_outer = some callS.region_ref_outer := by
  have h := c3_breakpoints envS (rl_encoder dfS) dfS rRefS rRefS regS callS
    (by with_unfolding_all rfl)
  exact ⟨h.2.2.2.2.1, h.2.2.2.2.2.2.2.1, h.2.2.2.2.2.2.2.2.1⟩

theorem annotate_row_FLANK (k : Nat) (su sd : List Nat) (u d : Region) (p : Nat) (row : Row) :
    (annotate_row k su sd u d p row).FLANK =
      if (d.pos : ℤ) ≤ (row.INDEX : ℤ) + (p : ℤ) ∧
          (row.INDEX : ℤ) + (p : ℤ) < (d.end_ : ℤ) - (k : ℤ) then some "DN"
      else if (u.pos : ℤ) ≤ (row.INDEX : ℤ) + (p : ℤ) ∧
          (row.INDEX : ℤ) + (p : ℤ) < (u.end_ : ℤ) - (k : ℤ) then some "UP"
      else none := rfl

theorem annotate_row_MATCH_of_FLANK_none (k : Nat) (su sd : List Nat) (u d : Region)
    (p : Nat) (row : Row) (h : (annotate_row k su sd u d p row).FLANK = none) :
    (annotate_row k su sd u d p row).MATCH = none := by
  simp only [annotate_row] at h ⊢
  rw [h]

theorem annotate_row_MATCH_of_FLANK_up (k : Nat) (su sd : List Nat) (u d : Region)
    (p : Nat) (row : Row) (h : (annotate_row k su sd u d p row).FLANK = some "UP") :
    (annotate_row k su sd u d p row).MATCH =
      if KMER_LOC_STATE (decide (row.KMER ∈ su)) (decide (row.KMER ∈ sd)) = "NA" then none
      else some (KMER_LOC_STATE (decide (row.KMER ∈ su)) (decide (row.KMER ∈ sd))) := by
  simp only [annotate_row] at h ⊢
  rw [h]
  rfl

theorem annotate_row_MATCH_of_FLANK_dn (k : Nat) (su sd : List Nat) (u d : Region)
    (p : Nat) (row : Row) (h : (annotate_row k su sd u d p row).FLANK = some "DN") :
    (annotate_row k su sd u d p row).MATCH =
      if KMER_LOC_STATE (decide (row.KMER ∈ sd)) (decide (row.KMER ∈ su)) = "NA" then none
      else some (KMER_LOC_STATE (decide (row.KMER ∈ sd)) (decide (row.KMER ∈ su))) := by
  simp only [annotate_row] at h ⊢
  rw [h]
  rfl

theorem annotate_mem (env : ScanEnv) (df : List Row)
    (rro rri rto rti rtd : Region) (row2 : Row)
    (h : row2 ∈ annotate_inv_dup_mers env df rro rri rto rti rtd) :
    ∃ row ∈ df, annotate_row env.k_size (ref_kmer_set_up env rro rri)
      (ref_kmer_set_dn env rro rri) ⟨rto.chrom, rto.pos, rti.pos⟩
      ⟨rto.chrom, rti.end_, rto.end_⟩ rtd.pos row = row2 := by
  simp only [annotate_inv_dup_mers] at h
  rw [List.mem_map] at h
  exact h

/-- Claim C2 (confirmed): the flank annotator locates each k-mer row by
offsetting the row contig index by the start position of the contig discovery
region argument (the sixth contract argument); a row carries a `FLANK` label
exactly when the resulting position falls in `[dup_tig.pos, dup_tig.end -
k_size)` for the upstream or downstream duplication window, and a `MATCH`
label is only given to rows carrying a `FLANK` label. -/
theorem c2_flank_window (env : ScanEnv) (df : List Row)
    (rro rri rto rti rtd : Region) (row2 : Row)
    (h : row2 ∈ annotate_inv_dup_mers env df rro rri rto rti rtd) :
    (row2.FLANK.isSome ↔
      (((rto.pos : ℤ) ≤ (row2.INDEX : ℤ) + (rtd.pos : ℤ) ∧
        (row2.INDEX : ℤ) + (rtd.pos : ℤ) < (rti.pos : ℤ) - (env.k_size : ℤ)) ∨
       ((rti.end_ : ℤ) ≤ (row2.INDEX : ℤ) + (rtd.pos : ℤ) ∧
        (row2.INDEX : ℤ) + (rtd.pos : ℤ) < (rto.end_ : ℤ) - (env.k_size : ℤ)))) ∧
    (row2.MATCH.isSome → row2.FLANK.isSome) := by
  obtain ⟨row, hr, hf⟩ := annotate_mem env df rro rri rto rti rtd row2 h
  subst hf
  rw [annotate_row_INDEX]
  have hF := annotate_row_FLANK env.k_size (ref_kmer_set_up env rro rri)
    (ref_kmer_set_dn env rro rri) ⟨rto.chrom, rto.pos, rti.pos⟩
    ⟨rto.chrom, rti.end_, rto.end_⟩ rtd.pos row
  dsimp only at hF
  by_cases hdn : (rti.end_ : ℤ) ≤ (row.INDEX : ℤ) + (rtd.pos : ℤ) ∧
      (row.INDEX : ℤ) + (rtd.pos : ℤ) < (rto.end_ : ℤ) - (env.k_size : ℤ)
  · rw [if_pos hdn] at hF
    exact ⟨by rw [hF]; exact iff_of_true rfl (Or.inr hdn), fun _ => by rw [hF]; rfl⟩
  · rw [if_neg hdn] at hF
    by_cases hup : (rto.pos : ℤ) ≤ (row.INDEX : ℤ) + (rtd.pos : ℤ) ∧
        (row.INDEX : ℤ) + (rtd.pos : ℤ) < (rti.pos : ℤ) - (env.k_size : ℤ)
    · rw [if_pos hup] at hF
      exact ⟨by rw [hF]; exact iff_of_true rfl (Or.inl hup), fun _ => by rw [hF]; rfl⟩
    · rw [if_neg hup] at hF
      constructor
      · rw [hF]
        apply iff_of_false
        · simp
        · rintro (hc | hc)
          · exact hup hc
          · exact hdn hc
      · intro hM
        rw [annotate_row_MATCH_of_FLANK_none _ _ _ _ _ _ _ hF] at hM
        simp at hM

/-- Witness for C2: the annotated row of `dfAnn` sits in the upstream flank
window and carries the `UP` label. -/
theorem c2_witness :
    rowAnnotated ∈ annotate_inv_dup_mers envCanon dfAnn rAnnOuter rAnnInner
      rAnnOuter rAnnInner rAnnOuter ∧
    (rowAnnotated.FLANK.isSome ↔
      (((rAnnOuter.pos : ℤ) ≤ (rowAnnotated.INDEX : ℤ) + (rAnnOuter.pos : ℤ) ∧
        (rowAnnotated.INDEX : ℤ) + (rAnnOuter.pos : ℤ) <
          (rAnnInner.pos : ℤ) - (envCanon.k_size : ℤ)) ∨
       ((rAnnInner.end_ : ℤ) ≤ (rowAnnotated.INDEX : ℤ) + (rAnnOuter.pos : ℤ) ∧
        (rowAnnotated.INDEX : ℤ) + (rAnnOuter.pos : ℤ) <
          (rAnnOuter.end_ : ℤ) - (envCanon.k_size : ℤ)))) := by
  have hmem : rowAnnotated ∈ annotate_inv_dup_mers envCanon dfAnn rAnnOuter rAnnInner
      rAnnOuter rAnnInner rAnnOuter := by with_unfolding_all decide
  exact ⟨hmem, (c2_flank_window envCanon dfAnn rAnnOuter rAnnInner rAnnOuter rAnnInner
    rAnnOuter rowAnnotated hmem).1⟩

/-- Claim C9 (confirmed): membership in the canonical duplication k-mer sets
is tested with the raw k-mer value, never its canonical form: a flank k-mer
absent from both sets stays unlabeled even when its canonical form differs
from the raw value and belongs to one of the sets; conversely a raw-value
member of the own-side set only is labeled `SAME`. -/
theorem c9_raw_kmer_match (env : ScanEnv) (df : List Row)
    (rro rri rto rti rtd : Region) (row2 : Row)
    (h : row2 ∈ annotate_inv_dup_mers env df rro rri rto rti rtd) :
    (row2.KMER ∉ ref_kmer_set_up env rro rri →
     row2.KMER ∉ ref_kmer_set_dn env rro rri →
     env.canonical_complement row2.KMER ≠ row2.KMER →
     (env.canonical_complement row2.KMER ∈ ref_kmer_set_up env rro rri ∨
      env.canonical_complement row2.KMER ∈ ref_kmer_set_dn env rro rri) →
     row2.MATCH = none) ∧
    ((rto.pos : ℤ) ≤ (row2.INDEX : ℤ) + (rtd.pos : ℤ) →
     (row2.INDEX : ℤ) + (rtd.pos : ℤ) < (rti.pos : ℤ) - (env.k_size : ℤ) →
     ¬ ((rti.end_ : ℤ) ≤ (row2.INDEX : ℤ) + (rtd.pos : ℤ) ∧
        (row2.INDEX : ℤ) + (rtd.pos : ℤ) < (rto.end_ : ℤ) - (env.k_size : ℤ)) →
     row2.KMER ∈ ref_kmer_set_up env rro rri →
     row2.KMER ∉ ref_kmer_set_dn env rro rri →
     row2.MATCH = some "SAME") := by
  obtain ⟨row, hr, hf⟩ := annotate_mem env df rro rri rto rti rtd row2 h
  subst hf
  rw [annotate_row_INDEX, annotate_row_KMER]
  have hF := annotate_row_FLANK env.k_size (ref_kmer_set_up env rro rri)
    (ref_kmer_set_dn env rro rri) ⟨rto.chrom, rto.pos, rti.pos⟩
    ⟨rto.chrom, rti.end_, rto.end_⟩ rtd.pos row
  dsimp only at hF
  constructor
  · intro hnu hnd _ _
    by_cases hdn : (rti.end_ : ℤ) ≤ (row.INDEX : ℤ) + (rtd.pos : ℤ) ∧
        (row.INDEX : ℤ) + (rtd.pos : ℤ) < (rto.end_ : ℤ) - (env.k_size : ℤ)
    · rw [if_pos hdn] at hF
      rw [annotate_row_MATCH_of_FLANK_dn _ _ _ _ _ _ _ hF]
      rw [decide_eq_false hnu, decide_eq_false hnd]
      rfl
    · rw [if_neg hdn] at hF
      by_cases hup : (rto.pos : ℤ) ≤ (row.INDEX : ℤ) + (rtd.pos : ℤ) ∧
          (row.INDEX : ℤ) + (rtd.pos : ℤ) < (rti.pos : ℤ) - (env.k_size : ℤ)
      · rw [if_pos hup] at hF
        rw [annotate_row_MATCH_of_FLANK_up _ _ _ _ _ _ _ hF]
        rw [decide_eq_false hnu, decide_eq_false hnd]
        rfl
      · rw [if_neg hup] at hF
        exact annotate_row_MATCH_of_FLANK_none _ _ _ _ _ _ _ hF
  · intro h1 h2 hdn hmu hnd
    rw [if_neg hdn, if_pos ⟨h1, h2⟩] at hF
    rw [annotate_row_MATCH_of_FLANK_up _ _ _ _ _ _ _ hF]
    rw [decide_eq_true hmu, decide_eq_false hnd]
    rfl

/-- Witness for C9: the raw k-mer `105` is in the upstream flank window, its
canonical form `5` is in the upstream set, yet its `MATCH` stays missing. -/
theorem c9_witness :
    rowAnnotated.KMER ∉ ref_kmer_set_up envCanon rAnnOuter rAnnInner ∧
    envCanon.canonical_complement rowAnnotated.KMER ∈
      ref_kmer_set_up envCanon rAnnOuter rAnnInner ∧
    rowAnnotated.MATCH = none := by
  have hmem : rowAnnotated ∈ annotate_inv_dup_mers envCanon dfAnn rAnnOuter rAnnInner
      rAnnOuter rAnnInner rAnnOuter := by with_unfolding_all decide
  refine ⟨by decide, by decide, ?_⟩
  exact (c9_raw_kmer_match envCanon dfAnn rAnnOuter rAnnInner rAnnOuter rAnnInner
    rAnnOuter rowAnnotated hmem).1 (by decide) (by decide) (by decide)
    (Or.inl (by decide))

/-- Counterexample to claim C1 as stated: the two-run sequence `[FWD, REV]`
reaches the expand branch with FWD signal at the first run only, so the claim
demands balance `0.25`, but the code only applies the bias with more than two
runs and chooses the even balance `0.5`. -/
theorem c1_counterexample :
    ([0, 2] : List Nat).headD 9 = 0 ∧ ([0, 2] : List Nat).getLastD 9 ≠ 0 ∧
    chooseBalance [0, 2] = 1 / 2 ∧ ¬ chooseBalance [0, 2] = 1 / 4 := by
  with_unfolding_all decide

/-- Claim C1 (corrected): every continuing loop iteration expands the region
by `current_length × EXPAND_FACTOR` with the balance chosen from the
run-length states; the FWD-end bias applies only when there are more than two
runs (first FWD only → `0.25`, last FWD only → `0.75`, neither → `0.5`), and
with two runs or fewer the balance is always `0.5`. -/
theorem c1_balance_amended :
    (∀ (env : ScanEnv) (fl r : Region) (ec : Nat) (r2 : Region),
      scanStep env fl r ec = Sum.inr r2 →
      ∃ rt, env.liftToQry r = some rt ∧
        r2 = Region.expand (env.chromLen r.chrom) r (expandBp r.length)
          (chooseBalance ((rl_encoder (env.density r rt)).map Seg.state))) ∧
    (∀ cs : List Nat,
      (2 < cs.length →
        (cs.headD 9 = 0 → chooseBalance cs = 1 / 4) ∧
        (cs.headD 9 ≠ 0 → cs.getLastD 9 = 0 → chooseBalance cs = 3 / 4) ∧
        (cs.headD 9 ≠ 0 → cs.getLastD 9 ≠ 0 → chooseBalance cs = 1 / 2)) ∧
      (¬ 2 < cs.length → chooseBalance cs = 1 / 2)) := by
  constructor
  · intro env fl r ec r2 h
    exact (scanStep_inr env fl r ec r2 h).1
  · intro cs
    constructor
    · intro h3
      refine ⟨?_, ?_, ?_⟩
      · intro hh; rw [chooseBalance, if_pos h3, if_pos hh]
      · intro hh hl; rw [chooseBalance, if_pos h3, if_neg hh, if_pos hl]
      · intro hh hl; rw [chooseBalance, if_pos h3, if_neg hh, if_neg hl]
    · intro h3
      rw [chooseBalance, if_neg h3]

/-- Witness for C1: a concrete continuing iteration expands with the chosen
balance, and a three-run sequence with FWD first gets balance `0.25`. -/
theorem c1_witness :
    (∃ rt, envGrow.liftToQry rBoundary = some rt ∧
      (⟨"c", 0, 88⟩ : Region) = Region.expand (envGrow.chromLen rBoundary.chrom) rBoundary
        (expandBp rBoundary.length)
        (chooseBalance ((rl_encoder (envGrow.density rBoundary rt)).map Seg.state))) ∧
    chooseBalance [0, 2, 1] = 1 / 4 := by
  constructor
  · exact c1_balance_amended.1 envGrow rBoundary rBoundary 0 ⟨"c", 0, 88⟩
      (by with_unfolding_all rfl)
  · exact ((c1_balance_amended.2 [0, 2, 1]).1 (by decide)).1 (by decide)

/-- Counterexample to claim C6 as stated: with a single FWD run and an
expansion count still below `MIN_EXP_COUNT`, the claim says the scanner
expands and continues, but when the region already spans the chromosome the
expansion has no effect and the scanner returns no call instead. -/
theorem c6_counterexample :
    rl_encoder (envBoundary.density rBoundary rBoundary) = [⟨0, 5, 0, 4⟩] ∧
    (0 : Nat) + 1 < MIN_EXP_COUNT ∧
    scanStep envBoundary rBoundary rBoundary 0 = Sum.inl (Except.ok none) := by
  with_unfolding_all decide

/-- Claim C6 (corrected): when the smoothed table run-length encodes to one
single FWD run, the scanner returns no call as soon as the expansion count
(incremented at the start of the iteration) has reached `MIN_EXP_COUNT`;
below that count it expands the region and continues, unless the expansion
leaves the region length unchanged (chromosome boundary), in which case it
returns no call. -/
theorem c6_single_fwd_amended (env : ScanEnv) (fl r : Region) (ec : Nat) (rt : Region)
    (s : Seg)
    (hq : env.liftToQry r = some rt)
    (hk : ¬ env.refKmers r = [])
    (hm : ¬ MAX_REF_KMER_COUNT < ((env.refKmers r).map Prod.snd).foldl max 0)
    (hrl : rl_encoder (env.density r rt) = [s])
    (hs : s.state = 0) :
    (MIN_EXP_COUNT ≤ ec + 1 → scanStep env fl r ec = Sum.inl (Except.ok none)) ∧
    (ec + 1 < MIN_EXP_COUNT →
      ((Region.expand (env.chromLen r.chrom) r (expandBp r.length)
          (chooseBalance [s.state])).length = r.length →
        scanStep env fl r ec = Sum.inl (Except.ok none)) ∧
      ((Region.expand (env.chromLen r.chrom) r (expandBp r.length)
          (chooseBalance [s.state])).length ≠ r.length →
        scanStep env fl r ec = Sum.inr (Region.expand (env.chromLen r.chrom) r
          (expandBp r.length) (chooseBalance [s.state])))) := by
  have hdf : ¬ env.density r rt = [] := by
    intro hnil
    rw [hnil] at hrl
    simp [rl_encoder] at hrl
  constructor
  · intro hge
    rw [scanStep, hq]
    dsimp only
    rw [if_neg hk, if_neg hm, if_neg hdf, hrl]
    rw [if_pos ⟨rfl, hs, hge⟩]
  · intro hlt
    constructor
    · intro hlen
      rw [scanStep, hq]
      dsimp only
      rw [if_neg hk, if_neg hm, if_neg hdf, hrl]
      rw [if_neg (fun hcon => absurd hcon.2.2 (by omega))]
      rw [if_neg (fun hcon => by simpa using hcon.1)]
      rw [show List.map Seg.state [s] = [s.state] from rfl]
      rw [if_pos hlen]
    · intro hlen
      rw [scanStep, hq]
      dsimp only
      rw [if_neg hk, if_neg hm, if_neg hdf, hrl]
      rw [if_neg (fun hcon => absurd hcon.2.2 (by omega))]
      rw [if_neg (fun hcon => by simpa using hcon.1)]
      rw [show List.map Seg.state [s] = [s.state] from rfl]
      rw [if_neg hlen]

/-- Witness for C6: at the third expansion the single-FWD-run region is
abandoned; on a long chromosome the first iteration instead expands and
continues. -/
theorem c6_witness :
    scanStep envBoundary rBoundary rBoundary 2 = Sum.inl (Except.ok none) ∧
    scanStep envGrow rBoundary rBoundary 0 = Sum.inr (Region.expand
      (envGrow.chromLen rBoundary.chrom) rBoundary (expandBp rBoundary.length)
      (chooseBalance [(⟨0, 5, 0, 4⟩ : Seg).state])) := by
  constructor
  · exact (c6_single_fwd_amended envBoundary rBoundary rBoundary 2 rBoundary ⟨0, 5, 0, 4⟩
      rfl (by decide) (by decide) (by decide) (by decide)).1 (by decide)
  · exact ((c6_single_fwd_amended envGrow rBoundary rBoundary 0 rBoundary ⟨0, 5, 0, 4⟩
      rfl (by decide) (by decide) (by decide) (by decide)).2 (by decide)).2
      (by with_unfolding_all decide)

/-- Counterexample to claim C5 as stated: the structural first/last-FWD check
is not the sole raising path — at a found state whose run-length encoding is
properly FWD-flanked, a failed lift of the outer breakpoint region back to
reference coordinates is unhandled and raises (`len(None)`), instead of
returning no call. -/
theorem c5_counterexample :
    (rlFound.headD dSeg).state = 0 ∧ (rlFound.getLastD dSeg).state = 0 ∧
    characterize_found_region envBoundary rlFound [] rBoundary rBoundary rBoundary =
      Except.error "TypeError: object of type NoneType has no len" := by
  with_unfolding_all decide

/-- Claim C5 (corrected): each listed data-driven rejection — in-loop lift
failure, empty reference k-mer counts, a k-mer count above
`MAX_REF_KMER_COUNT`, an empty smoothed table, single-FWD-run exhaustion, a
no-growth expansion, absence of a REV run, a longest REV run below
`MIN_INV_KMER_RUN`, a failed proportion check — returns no call rather than
raising; the structural first/last-FWD check raises a fatal `RuntimeError`
on violation; but it is not the sole raising path: an error can also arise
from an unhandled failed lift of the outer or inner breakpoint region back
to reference coordinates. -/
theorem c5_rejections_amended :
    (∀ (env : ScanEnv) (fl r : Region) (ec : Nat),
      env.liftToQry r = none → scanStep env fl r ec = Sum.inl (Except.ok none)) ∧
    (∀ (env : ScanEnv) (fl r : Region) (ec : Nat),
      env.refKmers r = [] → scanStep env fl r ec = Sum.inl (Except.ok none)) ∧
    (∀ (env : ScanEnv) (fl r : Region) (ec : Nat),
      MAX_REF_KMER_COUNT < ((env.refKmers r).map Prod.snd).foldl max 0 →
      scanStep env fl r ec = Sum.inl (Except.ok none)) ∧
    (∀ (env : ScanEnv) (fl r : Region) (ec : Nat) (rt : Region),
      env.liftToQry r = some rt → env.density r rt = [] →
      scanStep env fl r ec = Sum.inl (Except.ok none)) ∧
    (∀ (env : ScanEnv) (fl r : Region) (ec : Nat) (rt : Region) (s : Seg),
      env.liftToQry r = some rt → rl_encoder (env.density r rt) = [s] →
      s.state = 0 → MIN_EXP_COUNT ≤ ec + 1 →
      scanStep env fl r ec = Sum.inl (Except.ok none)) ∧
    (∀ (env : ScanEnv) (fl r : Region) (ec : Nat) (rt : Region),
      env.liftToQry r = some rt →
      ¬ (2 < ((rl_encoder (env.density r rt)).map Seg.state).length ∧
         ((rl_encoder (env.density r rt)).map Seg.state).headD 9 = 0 ∧
         ((rl_encoder (env.density r rt)).map Seg.state).getLastD 9 = 0) →
      (Region.expand (env.chromLen r.chrom) r (expandBp r.length)
        (chooseBalance ((rl_encoder (env.density r rt)).map Seg.state))).length = r.length →
      scanStep env fl r ec = Sum.inl (Except.ok none)) ∧
    (∀ (env : ScanEnv) (rl : List Seg) (df : List Row) (rt rr fl : Region),
      ¬ rl.any (fun s => s.state = 2) = true →
      characterize_found_region env rl df rt rr fl = Except.ok none) ∧
    (∀ (env : ScanEnv) (rl : List Seg) (df : List Row) (rt rr fl : Region),
      ((rl.filter (fun s => s.state = 2)).map Seg.count).foldl max 0 < MIN_INV_KMER_RUN →
      characterize_found_region env rl df rt rr fl = Except.ok none) ∧
    (∀ (env : ScanEnv) (rl : List Seg) (df : List Row) (rt rr fl rro : Region),
      rl.any (fun s => s.state = 2) = true →
      ¬ ((rl.filter (fun s => s.state = 2)).map Seg.count).foldl max 0 < MIN_INV_KMER_RUN →
      (rl.headD dSeg).state = 0 →
      (rl.getLastD dSeg).state = 0 →
      env.liftToSub (region_tig_outer_of env.k_size rl rt) = some rro →
      ((rro.length : ℚ) <
          ((region_tig_outer_of env.k_size rl rt).length : ℚ) * MIN_TIG_REF_PROP ∨
        ((region_tig_outer_of env.k_size rl rt).length : ℚ) <
          (rro.length : ℚ) * MIN_TIG_REF_PROP) →
      characterize_found_region env rl df rt rr fl = Except.ok none) ∧
    (∀ (env : ScanEnv) (rl : List Seg) (df : List Row) (rt rr fl : Region),
      rl.any (fun s => s.state = 2) = true →
      ¬ ((rl.filter (fun s => s.state = 2)).map Seg.count).foldl max 0 < MIN_INV_KMER_RUN →
      (¬ (rl.headD dSeg).state = 0 ∨ ¬ (rl.getLastD dSeg).state = 0) →
      characterize_found_region env rl df rt rr fl =
        Except.error
          "RuntimeError: Found INV region not flanked by reference sequence (program bug)") ∧
    (∀ (env : ScanEnv) (rl : List Seg) (df : List Row) (rt rr fl : Region)
        (e : String),
      characterize_found_region env rl df rt rr fl = Except.error e →
      (¬ (rl.headD dSeg).state = 0 ∨ ¬ (rl.getLastD dSeg).state = 0) ∨
      env.liftToSub (region_tig_outer_of env.k_size rl rt) = none ∨
      env.liftToSub (region_tig_inner_of env.k_size rl rt) = none) ∧
    (∀ (env : ScanEnv) (fl r : Region) (ec : Nat) (e : String),
      scanStep env fl r ec = Sum.inl (Except.error e) →
      ∃ rt, env.liftToQry r = some rt ∧
        characterize_found_region env (rl_encoder (env.density r rt)) (env.density r rt)
          rt r fl = Except.error e) := by
  refine ⟨?_, ?_, ?_, ?_, ?_, ?_, ?_, ?_, ?_, ?_, ?_, ?_⟩
  · intro env fl r ec h
    rw [scanStep, h]
  · intro env fl r ec hk
    cases hq : env.liftToQry r with
    | none => rw [scanStep, hq]
    | some rt =>
      rw [scanStep, hq]
      dsimp only
      rw [if_pos hk]
  · intro env fl r ec hm
    cases hq : env.liftToQry r with
    | none => rw [scanStep, hq]
    | some rt =>
      rw [scanStep, hq]
      dsimp only
      by_cases hk : env.refKmers r = []
      · rw [if_pos hk]
      · rw [if_neg hk, if_pos hm]
  · intro env fl r ec rt hq hdf
    rw [scanStep, hq]
    dsimp only
    by_cases hk : env.refKmers r = []
    · rw [if_pos hk]
    · rw [if_neg hk]
      by_cases hm : MAX_REF_KMER_COUNT < ((env.refKmers r).map Prod.snd).foldl max 0
      · rw [if_pos hm]
      · rw [if_neg hm, if_pos hdf]
  · intro env fl r ec rt s hq hrl hs hge
    have hdf : ¬ env.density r rt = [] := by
      intro hnil
      rw [hnil] at hrl
      simp [rl_encoder] at hrl
    rw [scanStep, hq]
    dsimp only
    by_cases hk : env.refKmers r = []
    · rw [if_pos hk]
    · rw [if_neg hk]
      by_cases hm : MAX_REF_KMER_COUNT < ((env.refKmers r).map Prod.snd).foldl max 0
      · rw [if_pos hm]
      · rw [if_neg hm, if_neg hdf, hrl]
        rw [if_pos ⟨rfl, hs, hge⟩]
  · intro env fl r ec rt hq hnb hlen
    rw [scanStep, hq]
    dsimp only
    by_cases hk : env.refKmers r = []
    · rw [if_pos hk]
    · rw [if_neg hk]
      by_cases hm : MAX_REF_KMER_COUNT < ((env.refKmers r).map Prod.snd).foldl max 0
      · rw [if_pos hm]
      · rw [if_neg hm]
        by_cases hdf : env.density r rt = []
        · rw [if_pos hdf]
        · rw [if_neg hdf]
          by_cases hsr : (rl_encoder (env.density r rt)).length = 1 ∧
              ((rl_encoder (env.density r rt)).map Seg.state).headD 9 = 0 ∧
              MIN_EXP_COUNT ≤ ec + 1
          · rw [if_pos hsr]
          · rw [if_neg hsr, if_neg hnb, if_pos hlen]
  · intro env rl df rt rr fl h
    rw [characterize_found_region, if_pos h]
  · intro env rl df rt rr fl h
    rw [characterize_found_region]
    by_cases hany : ¬ rl.any (fun s => s.state = 2) = true
    · rw [if_pos hany]
    · rw [if_neg hany, if_pos h]
  · intro env rl df rt rr fl rro hany hrun hh hl ho hfail
    rw [characterize_found_region]
    rw [if_neg (not_not_intro hany)]
    rw [if_neg hrun]
    rw [if_neg (fun hcon => hcon.elim (fun hna => hna hh) (fun hnb => hnb hl))]
    dsimp only
    rw [ho]
    dsimp only
    rcases hfail with hL | hR
    · rw [if_pos hL]
    · by_cases hL2 : (rro.length : ℚ) <
          ((region_tig_outer_of env.k_size rl rt).length : ℚ) * MIN_TIG_REF_PROP
      · rw [if_pos hL2]
      · rw [if_neg hL2, if_pos hR]
  · intro env rl df rt rr fl hany hrun h3
    rw [characterize_found_region]
    rw [if_neg (not_not_intro hany)]
    rw [if_neg hrun]
    rw [if_pos h3]
  · intro env rl df rt rr fl e h
    rw [characterize_found_region] at h
    by_cases hany : ¬ rl.any (fun s => s.state = 2) = true
    · rw [if_pos hany] at h; exact absurd h (by simp)
    · rw [if_neg hany] at h
      by_cases hrun : ((rl.filter (fun s => s.state = 2)).map Seg.count).foldl max 0
          < MIN_INV_KMER_RUN
      · rw [if_pos hrun] at h; exact absurd h (by simp)
      · rw [if_neg hrun] at h
        by_cases h3 : ¬ (rl.headD dSeg).state = 0 ∨ ¬ (rl.getLastD dSeg).state = 0
        · exact Or.inl h3
        · rw [if_neg h3] at h
          dsimp only at h
          cases ho : env.liftToSub (region_tig_outer_of env.k_size rl rt) with
          | none => exact Or.inr (Or.inl rfl)
          | some rro =>
            rw [ho] at h
            dsimp only at h
            by_cases h4 : (rro.length : ℚ) <
                ((region_tig_outer_of env.k_size rl rt).length : ℚ) * MIN_TIG_REF_PROP
            · rw [if_pos h4] at h; exact absurd h (by simp)
            · rw [if_neg h4] at h
              by_cases h5 : ((region_tig_outer_of env.k_size rl rt).length : ℚ) <
                  (rro.length : ℚ) * MIN_TIG_REF_PROP
              · rw [if_pos h5] at h; exact absurd h (by simp)
              · rw [if_neg h5] at h
                cases hi : env.liftToSub (region_tig_inner_of env.k_size rl rt) with
                | none => exact Or.inr (Or.inr rfl)
                | some rri =>
                  rw [hi] at h
                  dsimp only at h
                  exact absurd h (by simp)
  · intro env fl r ec e h
    rcases scanStep_inl env fl r ec _ h with hnone | ⟨rt, hq, hchr⟩
    · exact absurd hnone (by simp)
    · exact ⟨rt, hq, hchr⟩

/-- Witness for C5: a failed in-loop lift yields no call; a single-FWD-run
found state has no REV run and yields no call; a REV-headed run-length list
trips the structural check and raises the `RuntimeError`. -/
theorem c5_witness :
    scanStep envLiftFail rBoundary rBoundary 0 = Sum.inl (Except.ok none) ∧
    characterize_found_region envBoundary [⟨0, 5, 0, 4⟩] [] rBoundary rBoundary rBoundary =
      Except.ok none ∧
    characterize_found_region envBoundary [⟨2, 150, 0, 149⟩] [] rBoundary rBoundary
        rBoundary =
      Except.error
        "RuntimeError: Found INV region not flanked by reference sequence (program bug)" := by
  obtain ⟨h1, h2, h3, h4, h5, h6, h7, h8, h9, h10, h11, h12⟩ := c5_rejections_amended
  refine ⟨h1 envLiftFail rBoundary rBoundary 0 rfl, ?_, ?_⟩
  · exact h7 envBoundary [⟨0, 5, 0, 4⟩] [] rBoundary rBoundary rBoundary (by decide)
  · exact h10 envBoundary [⟨2, 150, 0, 149⟩] [] rBoundary rBoundary rBoundary (by decide)
      (by decide) (Or.inl (by decide))

/-- Claim C8 (confirmed): a continuing loop iteration strictly increases the
reference region length while staying clamped to the chromosome; with fuel
exceeding the chromosome length the loop never exhausts it; and the
fuel-indexed `scan_for_inv` always terminates with an answer. -/
theorem c8_monotone_termination :
    (∀ (env : ScanEnv) (fl r : Region) (ec : Nat) (r2 : Region),
      r.end_ ≤ env.chromLen r.chrom →
      scanStep env fl r ec = Sum.inr r2 →
      r.length < r2.length ∧ r2.chrom = r.chrom ∧ r2.end_ ≤ env.chromLen r2.chrom) ∧
    (∀ (env : ScanEnv) (fl : Region) (fuel : Nat) (r : Region) (ec : Nat),
      r.end_ ≤ env.chromLen r.chrom →
      env.chromLen r.chrom < fuel + r.length →
      scanLoop env fl fuel r ec ≠ none) ∧
    (∀ (env : ScanEnv) (region : Region), scan_for_inv env region ≠ none) := by
  refine ⟨scanStep_inr_growth, fun env fl => scanLoop_total env fl, ?_⟩
  intro env region
  rw [scan_for_inv]
  apply scanLoop_total
  · exact Region.expand_end_le _ _ _ _
  · have h : env.chromLen region.chrom < env.chromLen region.chrom + 1 +
        (Region.expand (env.chromLen region.chrom) region INITIAL_EXPAND (1 / 2)).length := by
      omega
    exact h

/-- Witness for C8: a concrete continuing iteration grows the region within
the chromosome, and the loop with one unit of fuel returns an answer when the
first lift fails. -/
theorem c8_witness :
    (rBoundary.length < (Region.mk "c" 0 88).length ∧
      (Region.mk "c" 0 88).chrom = rBoundary.chrom ∧
      (Region.mk "c" 0 88).end_ ≤ envGrow.chromLen (Region.mk "c" 0 88).chrom) ∧
    scanLoop envLiftFail rBoundary 1 rBoundary 0 ≠ none := by
  constructor
  · exact c8_monotone_termination.1 envGrow rBoundary rBoundary 0 ⟨"c", 0, 88⟩ (by decide)
      (by with_unfolding_all rfl)
  · exact c8_monotone_termination.2.1 envLiftFail rBoundary 1 rBoundary 0 (by decide)
      (by decide)
